import Mathlib

/-!
Shallow embedding of the tensoroptim shared-memory tensor engine
(types, codec, memory segments, slab allocator, tensor reference
lifecycle, registry) together with theorems settling the spec claims.

Python bytes are modelled as `List Nat` (each entry a byte value),
machine floats used only as timestamps are modelled as `Int`
(only their ordering matters to the embedded logic), and exceptions
are modelled with `Except` or by returning the mutated object next to
an `Except` result, mirroring the fact that a Python `raise` leaves
already-performed attribute mutations in place.
-/

namespace TensorOptim

/-- `tensoroptim.types.enums.TensorLifecycleState`. -/
inductive TensorLifecycleState where
  | UNINITIALIZED
  | ALLOCATING
  | ALLOCATED
  | MATERIALIZING
  | ACTIVE
  | PERSISTING
  | CACHED
  | DETACHING
  | DETACHED
  | CORRUPTED
  | EXPIRED
deriving DecidableEq, Repr

/-- `tensoroptim.types.enums.CompressionType`. -/
inductive CompressionType where
  | NONE
  | LZ4
  | ZSTD
  | CUSTOM
deriving DecidableEq, Repr

/-- The torch dtypes appearing in the codec's dtype tables. -/
inductive Dtype where
  | bool
  | uint8
  | int8
  | int16
  | int32
  | int64
  | float16
  | bfloat16
  | float32
  | float64
  | complex64
  | complex128
deriving DecidableEq, Repr

/-- `TensorDescriptor.element_size`: the `dtype_sizes` table in
`tensoroptim.types.descriptors` (default 4 is unreachable for the
enumerated dtypes). -/
def Dtype.element_size : Dtype → Nat
  | .bool => 1
  | .uint8 => 1
  | .int8 => 1
  | .int16 => 2
  | .int32 => 4
  | .int64 => 8
  | .float16 => 2
  | .bfloat16 => 2
  | .float32 => 4
  | .float64 => 8
  | .complex64 => 8
  | .complex128 => 16

/-- Byte width of the numpy dtype assigned by
`TensorCodec._torch_to_numpy_dtype_optimized` (note `bfloat16` maps to
`np.float32`, width 4). -/
def Dtype.np_itemsize : Dtype → Nat
  | .bool => 1
  | .uint8 => 1
  | .int8 => 1
  | .int16 => 2
  | .int32 => 4
  | .int64 => 8
  | .float16 => 2
  | .bfloat16 => 4
  | .float32 => 4
  | .float64 => 8
  | .complex64 => 8
  | .complex128 => 16

/-- `tensoroptim.types.descriptors.TensorDescriptor` (the fields the
core logic reads; timestamps and metadata are omitted as no embedded
operation inspects them). -/
structure TensorDescriptor where
  tensor_id : Nat
  shape : List Nat
  dtype : Dtype
  compression_type : CompressionType := .NONE
  checksum : Nat := 0
  alignment : Nat := 64
deriving DecidableEq, Repr

namespace TensorDescriptor

/-- `TensorDescriptor.numel`: product of the dims. -/
def numel (d : TensorDescriptor) : Nat :=
  d.shape.foldl (· * ·) 1

/-- `TensorDescriptor.element_size` via the dtype table. -/
def element_size (d : TensorDescriptor) : Nat :=
  d.dtype.element_size

/-- `TensorDescriptor.raw_byte_size = numel * element_size`. -/
def raw_byte_size (d : TensorDescriptor) : Nat :=
  d.numel * d.element_size

/-- `TensorDescriptor.aligned_byte_size`: the source computes
`(raw + alignment - 1) & ~(alignment - 1)`; for the power-of-two
alignments enforced by `__post_init__` this equals rounding
`raw + alignment - 1` down to a multiple of `alignment`. -/
def aligned_byte_size (d : TensorDescriptor) : Nat :=
  let x := d.raw_byte_size + d.alignment - 1
  x - x % d.alignment

end TensorDescriptor

/-- A host tensor as the core sees it: a shape, the byte width of one
element, and the contiguous little-endian byte payload
(`tensor.detach().numpy().tobytes()` order). -/
structure PyTensor where
  shape : List Nat
  itemsize : Nat
  data : List Nat
deriving DecidableEq, Repr

/-- The external compression libraries (`lz4.frame`, `zstandard`) are
collaborators outside this repository; the codec is parametrised over
their entry points and availability flags (`HAS_LZ4`, importability of
`zstandard`). -/
structure CompressionLib where
  hasLz4 : Bool
  lz4_compress : List Nat → List Nat
  lz4_decompress : List Nat → List Nat
  hasZstd : Bool
  zstd_compress : List Nat → List Nat
  zstd_decompress : List Nat → List Nat

/-- A trivial but admissible instantiation: both optional libraries
absent, so every compression request degrades to raw bytes. -/
def noLib : CompressionLib where
  hasLz4 := false
  lz4_compress := id
  lz4_decompress := id
  hasZstd := false
  zstd_compress := id
  zstd_decompress := id

/-- Errors raised by the embedded core (one constructor per distinct
raise site relevant to the claims). -/
inductive TErr where
  | tensorDetached
  | persistDetached
  | tensorCorruption
  | encodedOversize
  | allocationFailure
  | valueError
deriving DecidableEq, Repr

namespace TensorCodec

/-- `TensorCodec.encode_parallel`: contiguous bytes of the tensor,
then the requested compression when its library is available,
otherwise the raw bytes. -/
def encode_parallel (lib : CompressionLib) (t : PyTensor)
    (compression : CompressionType) : List Nat :=
  let data := t.data
  if compression = .LZ4 ∧ lib.hasLz4 then lib.lz4_compress data
  else if compression = .ZSTD ∧ lib.hasZstd then lib.zstd_compress data
  else data

set_option linter.unusedVariables false in
/-- The chunk list built by the loop
`for i in range(0, len(data), chunk_size): chunks.append(data[i:i+chunk_size])`
in `TensorCodec._decode_parallel_chunks`. -/
def sliceChunks (step : Nat) (d : List Nat) : List (List Nat) :=
  if h : d = [] ∨ step = 0 then []
  else d.take step :: sliceChunks step (d.drop step)
termination_by d.length
decreasing_by
  push_neg at h
  obtain ⟨hd, hs⟩ := h
  simp [List.length_drop]
  exact ⟨List.length_pos.mpr hd, Nat.pos_of_ne_zero hs⟩

/-- Reassembling `np.frombuffer` results followed by `reshape`:
succeeds exactly when the byte count is a whole number of numpy items
and the item count matches the descriptor's shape. -/
def reshapeBytes (raw : List Nat) (descriptor : TensorDescriptor) :
    Except TErr PyTensor :=
  let npSize := descriptor.dtype.np_itemsize
  if raw.length % npSize = 0 ∧ raw.length / npSize = descriptor.numel then
    .ok ⟨descriptor.shape, npSize, raw⟩
  else
    .error .valueError

/-- `TensorCodec._decode_parallel_chunks`. The worker pool's
`as_completed` yields futures in completion order, not submission
order; that scheduling choice is the `order` parameter, the list of
chunk indices in the order the threads complete (a permutation of the
chunk indices under real scheduling). -/
def decode_parallel_chunks (cpuCount : Nat) (order : List Nat)
    (data : List Nat) (descriptor : TensorDescriptor) :
    Except TErr PyTensor :=
  let npSize := descriptor.dtype.np_itemsize
  let chunkSize := data.length / cpuCount / npSize * npSize
  let chunks := sliceChunks chunkSize data
  let arrays := order.filterMap fun i => chunks[i]?
  let combined := arrays.flatten
  reshapeBytes combined descriptor

/-- `TensorCodec.decode_parallel`: optional decompression driven by the
descriptor's compression type, the mandatory length check against
`raw_byte_size` (raising `TensorCorruption` on mismatch), then either
the parallel chunk path (parallel enabled and more than `1024 * 1024`
bytes) or the direct `frombuffer`/`reshape` path. -/
def decode_parallel (lib : CompressionLib) (useParallel : Bool)
    (cpuCount : Nat) (order : List Nat) (data : List Nat)
    (descriptor : TensorDescriptor) : Except TErr PyTensor :=
  let raw :=
    if descriptor.compression_type = .LZ4 ∧ lib.hasLz4 then
      lib.lz4_decompress data
    else if descriptor.compression_type = .ZSTD ∧ lib.hasZstd then
      lib.zstd_decompress data
    else data
  if raw.length ≠ descriptor.raw_byte_size then
    .error .tensorCorruption
  else if useParallel ∧ raw.length > 1024 * 1024 then
    decode_parallel_chunks cpuCount order raw descriptor
  else
    reshapeBytes raw descriptor

/-- `TensorCodec.validate_integrity_fast`: the source short-circuits to
`return True` (the checksum comparison below it is commented out). -/
def validate_integrity_fast (_data : List Nat) (_expectedChecksum : Nat) :
    Bool :=
  true

end TensorCodec

/-! ## Memory segments

A segment's backing store is its byte contents, `List Nat`.  Two
snapshots of the segment classes live in the repository: the flat
module `tensoroptim/memory/segments.py` (whose reads slice the mapping
directly) and the package `tensoroptim/memory/segments/` (whose reads
and writes check bounds first).  Both are embedded. -/

/-- Python slice semantics `buf[offset : offset + size]`: indices are
clamped to the buffer, so an out-of-range request yields the bytes
that exist, never an error. -/
def pySlice (seg : List Nat) (offset size : Nat) : List Nat :=
  (seg.drop offset).take size

/-- In-bounds slice assignment `buf[offset : offset + len(data)] = data`. -/
def pySpliceWrite (seg : List Nat) (offset : Nat) (data : List Nat) :
    List Nat :=
  seg.take offset ++ data ++ seg.drop (offset + data.length)

namespace SegmentsModule

/-- `segments.py::HugePagesSegment.read_vectorized`:
`memoryview(self._mmap[offset:offset + size])` with no bounds check —
a request past the end simply returns fewer bytes. -/
def HugePagesSegment.read_vectorized (seg : List Nat)
    (offset size : Nat) : List Nat :=
  pySlice seg offset size

/-- `segments.py::HugePagesSegment.write_vectorized`:
`self._mmap[offset:offset + len(data)] = data`; mmap slice assignment
demands the slice and the data have the same length, so an
out-of-range nonempty write raises (`ValueError`) rather than
truncating. -/
def HugePagesSegment.write_vectorized (seg : List Nat) (offset : Nat)
    (data : List Nat) : List Nat × Except TErr Unit :=
  if data.length = 0 ∨ offset + data.length ≤ seg.length then
    (pySpliceWrite seg offset data, .ok ())
  else
    (seg, .error .valueError)

/-- `segments.py::NumaAwareSharedMemory.read_vectorized`:
`memoryview(self._shm.buf[offset:offset + size])`, again unchecked. -/
def NumaAwareSharedMemory.read_vectorized (seg : List Nat)
    (offset size : Nat) : List Nat :=
  pySlice seg offset size

/-- `segments.py::NumaAwareSharedMemory.write_vectorized`: memoryview
slice assignment, which requires an exact length match. -/
def NumaAwareSharedMemory.write_vectorized (seg : List Nat)
    (offset : Nat) (data : List Nat) : List Nat × Except TErr Unit :=
  if data.length = 0 ∨ offset + data.length ≤ seg.length then
    (pySpliceWrite seg offset data, .ok ())
  else
    (seg, .error .valueError)

end SegmentsModule

namespace SegmentsPackage

/-- `segments/hugepages.py::HugePagesSegment.read_vectorized`: raises
`ValueError` when `offset + size > self._size`, otherwise returns the
slice.  `segments/posix_shm.py` and `segments/numa_aware.py` carry the
identical check, and `segments/optimized_buffer.py` the same one over
its ctypes buffer, so this one definition embeds all four package
variants. -/
def read_vectorized (seg : List Nat) (offset size : Nat) :
    Except TErr (List Nat) :=
  if offset + size > seg.length then .error .valueError
  else .ok (pySlice seg offset size)

/-- `segments/hugepages.py::HugePagesSegment.write_vectorized` (and its
posix_shm / numa_aware / optimized_buffer twins): raises `ValueError`
when `offset + len(data) > self._size`, otherwise writes in place. -/
def write_vectorized (seg : List Nat) (offset : Nat) (data : List Nat) :
    Except TErr (List Nat) :=
  if offset + data.length > seg.length then .error .valueError
  else .ok (pySpliceWrite seg offset data)

end SegmentsPackage

/-! ## TensorReference lifecycle -/

/-- `tensoroptim.core.tensor.TensorReference`: descriptor, storage
offset, lifecycle state, the weak materialized-tensor association
(`some t` = the weak reference is set and its target is still alive),
and the access counter.  The reference's segment is passed to each
operation as its byte contents. -/
structure TensorReference where
  descriptor : TensorDescriptor
  offset : Nat
  state : TensorLifecycleState := .ALLOCATED
  weak_tensor : Option PyTensor := none
  access_count : Nat := 0
deriving DecidableEq, Repr

namespace TensorReference

/-- `TensorReference.is_valid`. -/
def is_valid (r : TensorReference) : Bool :=
  r.state = .ACTIVE ∨ r.state = .CACHED

/-- `TensorReference.materialize_optimized`.  Returns the reference as
mutated by the call (a Python `raise` keeps prior attribute writes)
next to the outcome.  Steps, in source order: bump access stats;
return the weakly-held tensor if alive (state → ACTIVE); reject
DETACHED; state → MATERIALIZING; read `raw_byte_size` bytes at the
offset; validate integrity (→ CORRUPTED and `TensorCorruption` on
failure); decode; cache the weak association; state → ACTIVE. -/
def materialize_optimized (lib : CompressionLib) (useParallel : Bool)
    (cpuCount : Nat) (order : List Nat) (r : TensorReference)
    (seg : List Nat) : TensorReference × Except TErr PyTensor :=
  let r := {r with access_count := r.access_count + 1}
  match r.weak_tensor with
  | some t => ({r with state := .ACTIVE}, .ok t)
  | none =>
    if r.state = .DETACHED then (r, .error .tensorDetached)
    else
      let r := {r with state := .MATERIALIZING}
      let data := pySlice seg r.offset r.descriptor.raw_byte_size
      if ¬ TensorCodec.validate_integrity_fast data r.descriptor.checksum
      then
        ({r with state := .CORRUPTED}, .error .tensorCorruption)
      else
        match TensorCodec.decode_parallel lib useParallel cpuCount order
            data r.descriptor with
        | .ok t => ({r with weak_tensor := some t, state := .ACTIVE}, .ok t)
        | .error e => (r, .error e)

/-- `TensorReference.persist_optimized`.  `checksumFn` stands for
`TensorCodec.compute_checksum_simd` applied to the tensor's contiguous
bytes (a truncated BLAKE2b digest computed by the external `hashlib`).
Steps, in source order: reject DETACHED; state → PERSISTING; compute
the fresh checksum; encode; raise when the encoding exceeds
`aligned_byte_size`; write; replace the descriptor's checksum; refresh
the weak association; state → ACTIVE. -/
def persist_optimized (checksumFn : List Nat → Nat)
    (lib : CompressionLib) (r : TensorReference) (seg : List Nat)
    (t : PyTensor) : TensorReference × List Nat × Except TErr Unit :=
  if r.state = .DETACHED then (r, seg, .error .persistDetached)
  else
    let r := {r with state := .PERSISTING}
    let new_checksum := checksumFn t.data
    let encoded := TensorCodec.encode_parallel lib t
        r.descriptor.compression_type
    if encoded.length > r.descriptor.aligned_byte_size then
      (r, seg, .error .encodedOversize)
    else
      let seg := pySpliceWrite seg r.offset encoded
      ({r with
          descriptor := {r.descriptor with checksum := new_checksum},
          weak_tensor := some t,
          state := .ACTIVE}, seg, .ok ())

/-- `TensorReference.detach_gracefully`: state → DETACHING, drop the
weak association, detach the finalizer, state → DETACHED. -/
def detach_gracefully (r : TensorReference) : TensorReference :=
  {r with state := .DETACHED, weak_tensor := none}

/-- `TensorReference._on_tensor_deleted`: the weak-reference callback;
an ACTIVE reference whose materialized tensor was collected becomes
CACHED. -/
def on_tensor_deleted (r : TensorReference) : TensorReference :=
  if r.state = .ACTIVE then {r with state := .CACHED, weak_tensor := none}
  else {r with weak_tensor := none}

end TensorReference

/-! ## Slab allocator

`tensoroptim.memory.allocators.SlabAllocator`.  The Python `set`
fields are embedded as duplicate-free lists: `add` inserts when
absent, `pop` takes the head (the set yields an arbitrary element),
`remove` erases the element. -/

/-- Python `set.add`. -/
def setAdd (s : List Nat) (x : Nat) : List Nat :=
  if x ∈ s then s else x :: s

/-- `SlabAllocator` state: sizes, derived objects-per-slab, the free
deque, the three classification sets, and the two counters.  The
segment participates only through its size. -/
structure SlabAllocator where
  segment_size : Nat
  slab_size : Nat
  object_size : Nat
  objects_per_slab : Nat
  free_objects : List Nat
  partial_slabs : List Nat
  full_slabs : List Nat
  empty_slabs : List Nat
  allocation_count : Nat
  deallocation_count : Nat
deriving DecidableEq, Repr

namespace SlabAllocator

/-- `SlabAllocator._create_slab`: the next slab offset is
`total_slabs * slab_size`; fails when the new slab would exceed the
segment, otherwise appends the slab's object offsets to the free
deque and returns the slab offset. -/
def create_slab (s : SlabAllocator) : Except TErr (Nat × SlabAllocator) :=
  let total_slabs :=
    s.partial_slabs.length + s.full_slabs.length + s.empty_slabs.length
  let slab_offset := total_slabs * s.slab_size
  if slab_offset + s.slab_size > s.segment_size then
    .error .allocationFailure
  else
    let objs := (List.range s.objects_per_slab).map
      (fun i => slab_offset + i * s.object_size)
    .ok (slab_offset, {s with free_objects := s.free_objects ++ objs})

/-- `SlabAllocator.__init__`: `objects_per_slab = max(1, slab_size //
object_size)`, all structures empty, then one slab created and
classified partial (the constructor propagates `AllocationFailure`
from `_create_slab`). -/
def init (segment_size object_size slab_size : Nat) :
    Except TErr SlabAllocator :=
  let s : SlabAllocator :=
    { segment_size := segment_size
      slab_size := slab_size
      object_size := object_size
      objects_per_slab := max 1 (slab_size / object_size)
      free_objects := []
      partial_slabs := []
      full_slabs := []
      empty_slabs := []
      allocation_count := 0
      deallocation_count := 0 }
  match s.create_slab with
  | .error e => .error e
  | .ok (initial_slab, s) =>
    .ok {s with partial_slabs := setAdd s.partial_slabs initial_slab}

/-- `SlabAllocator.allocate_aligned`: reject sizes above the object
class; when the free deque is empty, recycle an empty slab (re-adding
all of its object offsets) or create a new one; then pop the head of
the free deque. -/
def allocate_aligned (s : SlabAllocator) (size : Nat) :
    Except TErr (Nat × SlabAllocator) :=
  if size > s.object_size then .error .allocationFailure
  else
    let step : Except TErr SlabAllocator :=
      if s.free_objects.isEmpty then
        match s.empty_slabs with
        | slab_offset :: rest =>
          let objs := (List.range s.objects_per_slab).map
            (fun i => slab_offset + i * s.object_size)
          .ok {s with
            empty_slabs := rest
            partial_slabs := setAdd s.partial_slabs slab_offset
            free_objects := s.free_objects ++ objs}
        | [] =>
          match s.create_slab with
          | .error e => .error e
          | .ok (slab_offset, s) =>
            .ok {s with partial_slabs := setAdd s.partial_slabs slab_offset}
      else .ok s
    match step with
    | .error e => .error e
    | .ok s =>
      match s.free_objects with
      | [] => .error .allocationFailure
      | offset :: rest =>
        .ok (offset, {s with
          free_objects := rest
          allocation_count := s.allocation_count + 1})

/-- `SlabAllocator.deallocate_fast`: push the offset back, recount the
slab's free objects by scanning the free deque, and reclassify the
slab as empty when every object is free. -/
def deallocate_fast (s : SlabAllocator) (offset : Nat) : SlabAllocator :=
  let s := {s with
    free_objects := s.free_objects ++ [offset]
    deallocation_count := s.deallocation_count + 1}
  let slab_offset := offset / s.slab_size * s.slab_size
  let free_count_in_slab := s.free_objects.countP
    fun obj => decide (slab_offset ≤ obj ∧ obj < slab_offset + s.slab_size)
  if free_count_in_slab = s.objects_per_slab then
    if slab_offset ∈ s.partial_slabs then
      {s with
        partial_slabs := s.partial_slabs.erase slab_offset
        empty_slabs := setAdd s.empty_slabs slab_offset}
    else if slab_offset ∈ s.full_slabs then
      {s with
        full_slabs := s.full_slabs.erase slab_offset
        empty_slabs := setAdd s.empty_slabs slab_offset}
    else s
  else s

/-- A caller-visible allocator request. -/
inductive Op where
  | alloc (size : Nat)
  | dealloc (offset : Nat)
deriving DecidableEq, Repr

/-- One request against the allocator: a failed allocation leaves the
state unchanged (every mutation in the source happens after the
checks that can raise). -/
def applyOp (s : SlabAllocator) : Op → SlabAllocator
  | .alloc size =>
    match s.allocate_aligned size with
    | .ok (_, s') => s'
    | .error _ => s
  | .dealloc offset => s.deallocate_fast offset

/-- A sequence of requests. -/
def applyOps (s : SlabAllocator) (ops : List Op) : SlabAllocator :=
  ops.foldl applyOp s

end SlabAllocator

/-! ## Tensor registry -/

/-- What `TensorRegistry.cleanup_expired` reads from a registered
`TensorReference`: its lifecycle state and its own `_last_access`
stamp (`time.perf_counter()` values, modelled as `Int` since only
their order matters). -/
structure RegRef where
  state : TensorLifecycleState
  last_access : Int
deriving DecidableEq, Repr

/-- `TensorReference.is_valid` for a registered reference. -/
def RegRef.is_valid (r : RegRef) : Bool :=
  r.state = .ACTIVE ∨ r.state = .CACHED

/-- Python dict lookup on an association list (dict keys are unique;
well-formedness is assumed where a theorem needs it). -/
def dictLookup {β : Type} : List (Nat × β) → Nat → Option β
  | [], _ => none
  | p :: rest, k => if p.1 = k then some p.2 else dictLookup rest k

/-- `tensoroptim.core.registry.TensorRegistry`: the primary map
`_tensors` and the access-time map `_lru_cache` (the cleanup-queue
heap and counters do not participate in `cleanup_expired`). -/
structure TensorRegistry where
  tensors : List (Nat × RegRef)
  lru_cache : List (Nat × Int)
deriving DecidableEq, Repr

namespace TensorRegistry

/-- `TensorRegistry.remove_fast`: pop the id from both dicts; reports
whether the primary map held it. -/
def remove_fast (reg : TensorRegistry) (tensor_id : Nat) :
    TensorRegistry × Bool :=
  let removed := (dictLookup reg.tensors tensor_id).isSome
  ({ tensors := reg.tensors.filter fun p => p.1 != tensor_id
     lru_cache := reg.lru_cache.filter fun p => p.1 != tensor_id },
   removed)

/-- The per-entry test of `TensorRegistry.cleanup_expired`: the
`_lru_cache` stamp predates the cutoff, and the reference exists and
is either invalid or its own `_last_access` predates the cutoff. -/
def expiredTest (tensors : List (Nat × RegRef)) (cutoff : Int)
    (p : Nat × Int) : Bool :=
  decide (p.2 < cutoff) &&
    match dictLookup tensors p.1 with
    | some r => !r.is_valid || decide (r.last_access < cutoff)
    | none => false

/-- `TensorRegistry.cleanup_expired`: collect the expired ids from
`_lru_cache`, remove each via `remove_fast`, return how many. -/
def cleanup_expired (reg : TensorRegistry) (now max_age_seconds : Int) :
    TensorRegistry × Nat :=
  let cutoff := now - max_age_seconds
  let expired_ids :=
    (reg.lru_cache.filter (expiredTest reg.tensors cutoff)).map (·.1)
  (expired_ids.foldl (fun acc i => (remove_fast acc i).1) reg,
   expired_ids.length)

end TensorRegistry

/-- `total_slabs` as computed inside `_create_slab` and the statistics
methods: the number of slabs the allocator has ever created. -/
def SlabAllocator.total_slabs (s : SlabAllocator) : Nat :=
  s.partial_slabs.length + s.full_slabs.length + s.empty_slabs.length

/-! ## Concrete inputs referenced by the claim theorems -/

/-- The contiguous bytes of the 2 MiB counterexample tensor: the
first mebibyte all zeros, the second all ones. -/
def c2_data : List Nat :=
  List.replicate 1048576 0 ++ List.replicate 1048576 1

/-- The 2 MiB uint8 counterexample tensor for the round-trip claim. -/
def c2_tensor : PyTensor := ⟨[2097152], 1, c2_data⟩

/-- Its descriptor: shape (2097152,), uint8, no compression. -/
def c2_descriptor : TensorDescriptor :=
  { tensor_id := 2, shape := [2097152], dtype := .uint8,
    compression_type := .NONE, checksum := 0, alignment := 64 }

/-- A one-byte uint8 descriptor whose recorded checksum (42) is the
digest of the originally persisted byte `0`. -/
def c1_descriptor : TensorDescriptor :=
  { tensor_id := 1, shape := [1], dtype := .uint8,
    compression_type := .NONE, checksum := 42, alignment := 64 }

/-- A freshly allocated reference bound to `c1_descriptor` at offset 0. -/
def c1_reference : TensorReference :=
  { descriptor := c1_descriptor, offset := 0 }

/-- A reference bound to `c1_descriptor` that has entered the CORRUPTED
state (no live cached tensor). -/
def c4_reference : TensorReference :=
  { descriptor := c1_descriptor, offset := 0, state := .CORRUPTED }

/-- The allocator produced by
`SlabAllocator(segment of 2048 bytes, object_size=1024, slab_size=2048)`:
two 1024-byte objects in one partial slab. -/
def c8_allocator : SlabAllocator :=
  { segment_size := 2048, slab_size := 2048, object_size := 1024,
    objects_per_slab := 2, free_objects := [0, 1024],
    partial_slabs := [0], full_slabs := [], empty_slabs := [],
    allocation_count := 0, deallocation_count := 0 }

/-- A reference with alignment 1 (so `aligned_byte_size` = 4 bytes)
used to drive the oversize-persist path. -/
def c10_reference : TensorReference :=
  { descriptor := { tensor_id := 3, shape := [4], dtype := .uint8,
                    compression_type := .NONE, checksum := 0,
                    alignment := 1 },
    offset := 0 }

/-! ## Helper lemmas -/

/-- The reshape step can only fail with a `ValueError`, never with the
"detached" `TensorError`. -/
theorem reshapeBytes_ne_detached (raw : List Nat)
    (d : TensorDescriptor) :
    TensorCodec.reshapeBytes raw d ≠ .error .tensorDetached := by
  simp only [TensorCodec.reshapeBytes]
  split_ifs <;> simp

/-- `decode_parallel` can fail with `TensorCorruption` or a
`ValueError`, but never with the "detached" `TensorError`. -/
theorem decode_parallel_ne_detached (lib : CompressionLib)
    (useP : Bool) (cpu : Nat) (ord : List Nat) (data : List Nat)
    (d : TensorDescriptor) :
    TensorCodec.decode_parallel lib useP cpu ord data d ≠
      .error .tensorDetached := by
  simp only [TensorCodec.decode_parallel, TensorCodec.decode_parallel_chunks]
  split_ifs <;> first
    | exact reshapeBytes_ne_detached _ _
    | simp

/-- Deleting key `i` from a dict leaves lookups of other keys
unchanged. -/
theorem dictLookup_filter_ne {β : Type} (l : List (Nat × β))
    (k i : Nat) (h : k ≠ i) :
    dictLookup (l.filter fun p => p.1 != i) k = dictLookup l k := by
  induction l with
  | nil => rfl
  | cons p rest ih =>
    by_cases hpi : p.1 = i
    · have hb : (p.1 != i) = false := by simp [hpi]
      simp only [List.filter_cons, hb, Bool.false_eq_true, if_false, ih]
      have hpk : p.1 ≠ k := fun hk => h (by rw [← hk, hpi])
      simp [dictLookup, hpk]
    · have hb : (p.1 != i) = true := by simp [hpi]
      simp only [List.filter_cons, hb, if_true]
      by_cases hpk : p.1 = k <;> simp [dictLookup, hpk, ih]

/-- Deleting key `i` from a dict makes its lookup `none`. -/
theorem dictLookup_filter_self {β : Type} (l : List (Nat × β))
    (i : Nat) :
    dictLookup (l.filter fun p => p.1 != i) i = none := by
  induction l with
  | nil => rfl
  | cons p rest ih =>
    by_cases hpi : p.1 = i
    · have hb : (p.1 != i) = false := by simp [hpi]
      simp only [List.filter_cons, hb, Bool.false_eq_true, if_false, ih]
    · have hb : (p.1 != i) = true := by simp [hpi]
      simp only [List.filter_cons, hb, if_true]
      simp [dictLookup, hpi, ih]

/-- Effect of `remove_fast` on primary-map lookups. -/
theorem remove_fast_tensors_lookup (reg : TensorRegistry) (i k : Nat) :
    dictLookup ((reg.remove_fast i).1).tensors k =
      if k = i then none else dictLookup reg.tensors k := by
  by_cases hk : k = i
  · subst hk
    simp [TensorRegistry.remove_fast, dictLookup_filter_self]
  · simp [TensorRegistry.remove_fast, hk, dictLookup_filter_ne _ _ _ hk]

/-- Effect of the removal loop of `cleanup_expired` on primary-map
lookups. -/
theorem foldRemove_tensors_lookup (ids : List Nat) :
    ∀ (reg : TensorRegistry) (k : Nat),
    dictLookup ((ids.foldl
        (fun acc i => (TensorRegistry.remove_fast acc i).1) reg)).tensors
        k =
      if k ∈ ids then none else dictLookup reg.tensors k := by
  induction ids with
  | nil => intro reg k; simp
  | cons i rest ih =>
    intro reg k
    simp only [List.foldl_cons]
    rw [ih]
    by_cases hk : k ∈ rest
    · simp [hk]
    · by_cases hki : k = i
      · simp [hki, hk, remove_fast_tensors_lookup]
      · simp [hk, hki, remove_fast_tensors_lookup]

/-- For a dict with duplicate-free keys, lookup coincides with
membership. -/
theorem dictLookup_eq_some_iff_mem {β : Type} (l : List (Nat × β))
    (h : (l.map Prod.fst).Nodup) (k : Nat) (v : β) :
    dictLookup l k = some v ↔ (k, v) ∈ l := by
  induction l with
  | nil => simp [dictLookup]
  | cons p rest ih =>
    simp only [List.map_cons, List.nodup_cons] at h
    obtain ⟨hnot, hrest⟩ := h
    by_cases hpk : p.1 = k
    · simp only [dictLookup, hpk, if_true, Option.some.injEq,
        List.mem_cons]
      constructor
      · intro hv
        left
        rw [← hpk, ← hv]
      · rintro (hpq | hmem)
        · rw [← hpq]
        · exact absurd (hpk ▸ List.mem_map_of_mem Prod.fst hmem)
            hnot
    · simp only [dictLookup, hpk, if_false, List.mem_cons]
      rw [ih hrest]
      constructor
      · exact Or.inr
      · rintro (hpq | hmem)
        · exact absurd (congrArg Prod.fst hpq).symm hpk
        · exact hmem

/-- The classification invariant the allocator actually maintains:
the slab size is positive, no slab is ever classified full, and the
classification sets partition exactly the slabs created so far (one
entry per slab offset `k * slab_size`, `k < total_slabs`). -/
def SlabInv (s : SlabAllocator) : Prop :=
  0 < s.slab_size ∧ s.full_slabs = [] ∧
  (s.partial_slabs ++ s.empty_slabs).Perm
    ((List.range s.total_slabs).map (· * s.slab_size))

/-- The slab offsets `(List.range n).map (· * S)` are distinct for
positive `S`. -/
theorem slab_offsets_nodup (n S : Nat) (hS : 0 < S) :
    ((List.range n).map (· * S)).Nodup :=
  List.Nodup.map (fun _ _ hab => Nat.eq_of_mul_eq_mul_right hS hab)
    (List.nodup_range n)

/-- `SlabInv` is preserved by every allocator request. -/
theorem slabInv_applyOp (s : SlabAllocator) (op : SlabAllocator.Op)
    (h : SlabInv s) : SlabInv (s.applyOp op) := by
  obtain ⟨hS, hfull, hperm⟩ := h
  have hnodup : (s.partial_slabs ++ s.empty_slabs).Nodup :=
    hperm.symm.nodup (slab_offsets_nodup _ _ hS)
  rw [List.nodup_append] at hnodup
  obtain ⟨hnp, hne, hdisj⟩ := hnodup
  cases op with
  | dealloc offset =>
    show SlabInv (s.deallocate_fast offset)
    unfold SlabAllocator.deallocate_fast
    simp only []
    split
    · split
      · rename_i hmem
        have hso : offset / s.slab_size * s.slab_size ∉ s.empty_slabs :=
          fun hc => hdisj hmem hc
        refine ⟨hS, hfull, ?_⟩
        simp only [SlabAllocator.total_slabs]
        rw [setAdd, if_neg hso]
        have hlen : (s.partial_slabs.erase
            (offset / s.slab_size * s.slab_size)).length =
            s.partial_slabs.length - 1 := List.length_erase_of_mem hmem
        have hp1 : 1 ≤ s.partial_slabs.length :=
          List.length_pos.mpr (List.ne_nil_of_mem hmem)
        have htot : (s.partial_slabs.erase
              (offset / s.slab_size * s.slab_size)).length +
            s.full_slabs.length +
            ((offset / s.slab_size * s.slab_size) ::
              s.empty_slabs).length = s.total_slabs := by
          simp only [SlabAllocator.total_slabs, hlen, List.length_cons]
          omega
        rw [htot]
        have hstep : (s.partial_slabs.erase
              (offset / s.slab_size * s.slab_size) ++
            (offset / s.slab_size * s.slab_size) ::
              s.empty_slabs).Perm
            (s.partial_slabs ++ s.empty_slabs) := by
          refine List.Perm.trans List.perm_middle ?_
          exact ((List.perm_cons_erase hmem).symm.append_right
            s.empty_slabs)
        exact hstep.trans hperm
      · split
        · rename_i hmemf
          rw [hfull] at hmemf
          cases hmemf
        · exact ⟨hS, hfull, hperm⟩
    · exact ⟨hS, hfull, hperm⟩
  | alloc size =>
    simp only [SlabAllocator.applyOp]
    cases hres : s.allocate_aligned size with
    | error e => exact ⟨hS, hfull, hperm⟩
    | ok p =>
      unfold SlabAllocator.allocate_aligned at hres
      by_cases hsize : size > s.object_size
      · rw [if_pos hsize] at hres
        cases hres
      · rw [if_neg hsize] at hres
        cases hfree : s.free_objects with
        | cons a rest =>
          simp only [hfree, List.isEmpty_cons, Bool.false_eq_true,
            if_false, Except.ok.injEq] at hres
          subst hres
          exact ⟨hS, hfull, hperm⟩
        | nil =>
          simp only [hfree, List.isEmpty_nil, if_true] at hres
          cases hempty : s.empty_slabs with
          | cons e erest =>
            simp only [hempty] at hres
            cases hobjs : (List.range s.objects_per_slab).map
                (fun i => e + i * s.object_size) with
            | nil =>
              simp only [hobjs, List.nil_append] at hres
              cases hres
            | cons o orest =>
              simp only [hobjs, List.nil_append, Except.ok.injEq]
                at hres
              subst hres
              have henotp : e ∉ s.partial_slabs := by
                intro hc
                exact hdisj hc (hempty ▸ List.mem_cons_self e erest)
              refine ⟨hS, hfull, ?_⟩
              simp only [SlabAllocator.total_slabs]
              rw [setAdd, if_neg henotp]
              have htot : (e :: s.partial_slabs).length +
                  s.full_slabs.length + erest.length =
                  s.total_slabs := by
                simp only [SlabAllocator.total_slabs, hempty,
                  List.length_cons]
                omega
              rw [htot]
              have hstep : ((e :: s.partial_slabs) ++ erest).Perm
                  (s.partial_slabs ++ s.empty_slabs) := by
                rw [hempty]
                exact List.perm_middle.symm
              exact hstep.trans hperm
          | nil =>
            simp only [hempty] at hres
            unfold SlabAllocator.create_slab at hres
            by_cases hb : (s.partial_slabs.length +
                s.full_slabs.length + s.empty_slabs.length) *
                  s.slab_size + s.slab_size > s.segment_size
            · rw [if_pos hb] at hres
              cases hres
            · rw [if_neg hb] at hres
              cases hobjs : (List.range s.objects_per_slab).map
                  (fun i => (s.partial_slabs.length +
                    s.full_slabs.length + s.empty_slabs.length) *
                      s.slab_size + i * s.object_size) with
              | nil =>
                simp only [hobjs, hfree, List.nil_append] at hres
                cases hres
              | cons o orest =>
                simp only [hobjs, hfree, List.nil_append,
                  Except.ok.injEq] at hres
                subst hres
                have hfresh : (s.partial_slabs.length +
                    s.full_slabs.length + s.empty_slabs.length) *
                      s.slab_size ∉ s.partial_slabs := by
                  intro hc
                  have hmem2 : (s.partial_slabs.length +
                      s.full_slabs.length + s.empty_slabs.length) *
                        s.slab_size ∈
                      (List.range s.total_slabs).map
                        (· * s.slab_size) :=
                    hperm.subset (List.mem_append_left _ hc)
                  obtain ⟨k, hk, hke⟩ := List.mem_map.mp hmem2
                  have hkk := Nat.eq_of_mul_eq_mul_right hS hke
                  rw [List.mem_range, SlabAllocator.total_slabs]
                    at hk
                  omega
                refine ⟨hS, hfull, ?_⟩
                simp only [SlabAllocator.total_slabs]
                rw [setAdd, if_neg hfresh]
                have hempty2 : s.empty_slabs = [] := hempty
                have htot : ((s.partial_slabs.length +
                    s.full_slabs.length + s.empty_slabs.length) *
                      s.slab_size :: s.partial_slabs).length +
                    s.full_slabs.length + s.empty_slabs.length =
                    s.total_slabs + 1 := by
                  simp only [SlabAllocator.total_slabs,
                    List.length_cons]
                  omega
                rw [htot]
                have htarget : ((List.range (s.total_slabs + 1)).map
                    (· * s.slab_size)) =
                    ((List.range s.total_slabs).map
                      (· * s.slab_size)) ++
                      [s.total_slabs * s.slab_size] := by
                  rw [List.range_succ, List.map_append]
                  rfl
                rw [htarget]
                have hstep : (((s.partial_slabs.length +
                    s.full_slabs.length + s.empty_slabs.length) *
                      s.slab_size :: s.partial_slabs) ++
                    s.empty_slabs).Perm
                    ((s.partial_slabs ++ s.empty_slabs) ++
                      [s.total_slabs * s.slab_size]) := by
                  show ((s.total_slabs * s.slab_size ::
                      s.partial_slabs) ++ s.empty_slabs).Perm
                    ((s.partial_slabs ++ s.empty_slabs) ++
                      [s.total_slabs * s.slab_size])
                  exact (List.perm_append_singleton _ _).symm
                exact hstep.trans (hperm.append_right _)

/-- Slicing a buffer of the exact shape `a ++ b` with `|a| = step`,
`0 < |b| ≤ step` yields exactly the two chunks. -/
theorem sliceChunks_two (step : Nat) (a b : List Nat)
    (ha : a.length = step) (hb : b.length ≤ step) (hbne : b ≠ [])
    (hs : step ≠ 0) :
    TensorCodec.sliceChunks step (a ++ b) = [a, b] := by
  rw [TensorCodec.sliceChunks, dif_neg]
  · rw [List.take_left' ha, List.drop_left' ha]
    rw [TensorCodec.sliceChunks, dif_neg]
    · rw [List.take_of_length_le hb, List.drop_eq_nil_of_le hb]
      rw [TensorCodec.sliceChunks, dif_pos (Or.inl rfl)]
    · push_neg
      exact ⟨hbne, hs⟩
  · push_neg
    refine ⟨fun hc => hbne ?_, hs⟩
    exact (List.append_eq_nil.mp hc).2

/-! ## Claim theorems -/

/-- C1 (code_bug evidence): checksum validation is bypassed.
`validate_integrity_fast` returns `True` for every data/checksum pair,
so a materialize over a byte-flipped segment (descriptor checksum 42
was computed for the byte `0`, the segment now holds `1`) raises no
`TensorCorruption` and silently returns the wrong tensor with state
ACTIVE — the claim requires `TensorCorruption` here. -/
theorem C1_checksum_validation_bypassed :
    (∀ data cs, TensorCodec.validate_integrity_fast data cs = true) ∧
    TensorReference.materialize_optimized noLib true 1 [0]
        c1_reference [1] =
      ({c1_reference with
          state := .ACTIVE
          weak_tensor := some ⟨[1], 1, [1]⟩
          access_count := 1},
       .ok ⟨[1], 1, [1]⟩) :=
  ⟨fun _ _ => rfl, rfl⟩

/-- Core computation of `decode_parallel` on an uncompressed
two-chunk buffer: whatever order `as_completed` yields, the result is
the reshape of the chunks flattened in that order. -/
theorem decode_two_chunks (d : TensorDescriptor) (a b : List Nat)
    (n : Nat) (ord : List Nat)
    (hdc : d.compression_type = .NONE)
    (hnp : d.dtype.np_itemsize = 1)
    (ha : a.length = n) (hb : b.length = n) (hn : 0 < n)
    (hbig : 1024 * 1024 < n + n)
    (hraw : d.raw_byte_size = n + n) :
    TensorCodec.decode_parallel noLib true 2 ord (a ++ b) d =
      TensorCodec.reshapeBytes
        ((ord.filterMap fun i => [a, b][i]?).flatten) d := by
  have hlen : (a ++ b).length = n + n := by
    rw [List.length_append, ha, hb]
  have hbne : b ≠ [] := by
    intro hc
    rw [hc] at hb
    simp at hb
    omega
  have hcs : (a ++ b).length / 2 / d.dtype.np_itemsize *
      d.dtype.np_itemsize = n := by
    rw [hlen, hnp, Nat.div_one, Nat.mul_one]
    omega
  have hchunks : TensorCodec.sliceChunks n (a ++ b) = [a, b] :=
    sliceChunks_two n a b ha (le_of_eq hb) hbne (by omega)
  unfold TensorCodec.decode_parallel TensorCodec.decode_parallel_chunks
  rw [hdc]
  simp only []
  have hr : (if (CompressionType.NONE = CompressionType.LZ4 ∧
        noLib.hasLz4 = true) then noLib.lz4_decompress (a ++ b)
      else if (CompressionType.NONE = CompressionType.ZSTD ∧
        noLib.hasZstd = true) then noLib.zstd_decompress (a ++ b)
      else (a ++ b)) = a ++ b := rfl
  rw [hr, hraw]
  rw [if_neg (by rw [hlen]; simp)]
  rw [if_pos ⟨by trivial, by rw [hlen]; omega⟩]
  rw [hcs, hchunks]

/-- Decoding a two-chunk buffer with in-order completion `[0, 1]`
reassembles it faithfully. -/
theorem decode_two_chunks_inorder (d : TensorDescriptor)
    (a b : List Nat) (n : Nat)
    (hdc : d.compression_type = .NONE)
    (hnp : d.dtype.np_itemsize = 1)
    (ha : a.length = n) (hb : b.length = n) (hn : 0 < n)
    (hbig : 1024 * 1024 < n + n)
    (hraw : d.raw_byte_size = n + n)
    (hnumel : d.numel = n + n) :
    TensorCodec.decode_parallel noLib true 2 [0, 1] (a ++ b) d =
      .ok ⟨d.shape, 1, a ++ b⟩ := by
  rw [decode_two_chunks d a b n [0, 1] hdc hnp ha hb hn hbig hraw]
  have hfm : (([0, 1] : List Nat).filterMap
      fun i => [a, b][i]?).flatten = a ++ (b ++ []) := rfl
  rw [hfm, List.append_nil]
  unfold TensorCodec.reshapeBytes
  rw [if_pos]
  · rw [hnp]
  · rw [List.length_append, ha, hb, hnp, hnumel, Nat.mod_one,
      Nat.div_one]
    exact ⟨rfl, rfl⟩

/-- Decoding the same buffer when the second chunk's worker finishes
first (`as_completed` order `[1, 0]`) swaps the halves. -/
theorem decode_two_chunks_swapped (d : TensorDescriptor)
    (a b : List Nat) (n : Nat)
    (hdc : d.compression_type = .NONE)
    (hnp : d.dtype.np_itemsize = 1)
    (ha : a.length = n) (hb : b.length = n) (hn : 0 < n)
    (hbig : 1024 * 1024 < n + n)
    (hraw : d.raw_byte_size = n + n)
    (hnumel : d.numel = n + n) :
    TensorCodec.decode_parallel noLib true 2 [1, 0] (a ++ b) d =
      .ok ⟨d.shape, 1, b ++ a⟩ := by
  rw [decode_two_chunks d a b n [1, 0] hdc hnp ha hb hn hbig hraw]
  have hfm : (([1, 0] : List Nat).filterMap
      fun i => [a, b][i]?).flatten = b ++ (a ++ []) := rfl
  rw [hfm, List.append_nil]
  unfold TensorCodec.reshapeBytes
  rw [if_pos]
  · rw [hnp]
  · rw [List.length_append, ha, hb, hnp, hnumel, Nat.mod_one,
      Nat.div_one]
    exact ⟨rfl, by omega⟩

/-- Two constant blocks of different bytes do not commute under
append. -/
theorem replicate_append_ne (n : Nat) (hn : 0 < n) (x y : Nat)
    (hxy : x ≠ y) :
    List.replicate n y ++ List.replicate n x ≠
      List.replicate n x ++ List.replicate n y := by
  obtain ⟨m, rfl⟩ : ∃ m, n = m + 1 := ⟨n - 1, by omega⟩
  rw [List.replicate_succ x, List.replicate_succ y]
  simp only [List.cons_append]
  intro hc
  injection hc with h1 _
  exact hxy h1.symm

/-- C2 (code_bug evidence): the parallel decode path reassembles
chunks in completion order.  For the 2 MiB tensor `c2_tensor` encoded
without compression, decoding with the in-order completion `[0, 1]`
reproduces the tensor bit-for-bit, but the equally possible completion
order `[1, 0]` returns the two mebibyte halves swapped — so
`decode(encode(x, c))` is not `x` under every scheduling, refuting the
unconditional round-trip claim. -/
theorem C2_parallel_decode_reorders :
    TensorCodec.decode_parallel noLib true 2 [0, 1]
        (TensorCodec.encode_parallel noLib c2_tensor .NONE)
        c2_descriptor = .ok c2_tensor ∧
    TensorCodec.decode_parallel noLib true 2 [1, 0]
        (TensorCodec.encode_parallel noLib c2_tensor .NONE)
        c2_descriptor =
      .ok ⟨[2097152], 1,
        List.replicate 1048576 1 ++ List.replicate 1048576 0⟩ ∧
    TensorCodec.decode_parallel noLib true 2 [1, 0]
        (TensorCodec.encode_parallel noLib c2_tensor .NONE)
        c2_descriptor ≠ .ok c2_tensor := by
  have henc : TensorCodec.encode_parallel noLib c2_tensor .NONE =
      List.replicate 1048576 0 ++ List.replicate 1048576 1 := rfl
  have hraw : c2_descriptor.raw_byte_size = 1048576 + 1048576 := by
    unfold TensorDescriptor.raw_byte_size TensorDescriptor.numel
      TensorDescriptor.element_size
    norm_num [c2_descriptor, Dtype.element_size]
  have hnumel : c2_descriptor.numel = 1048576 + 1048576 := by
    unfold TensorDescriptor.numel
    norm_num [c2_descriptor]
  refine ⟨?_, ?_, ?_⟩
  · rw [henc]
    exact decode_two_chunks_inorder c2_descriptor _ _ 1048576 rfl rfl
      (List.length_replicate _ _) (List.length_replicate _ _)
      (by norm_num) (by norm_num) hraw hnumel
  · rw [henc]
    exact decode_two_chunks_swapped c2_descriptor _ _ 1048576 rfl rfl
      (List.length_replicate _ _) (List.length_replicate _ _)
      (by norm_num) (by norm_num) hraw hnumel
  · rw [henc]
    rw [decode_two_chunks_swapped c2_descriptor _ _ 1048576 rfl rfl
      (List.length_replicate _ _) (List.length_replicate _ _)
      (by norm_num) (by norm_num) hraw hnumel]
    intro hc
    have h2 := Except.ok.inj hc
    have h3 := congrArg PyTensor.data h2
    exact replicate_append_ne 1048576 (by norm_num) 0 1 (by norm_num)
      h3

/-- C3 counterexample: in the flat module
`tensoroptim/memory/segments.py`, an out-of-bounds read on
`HugePagesSegment` (and `NumaAwareSharedMemory`) silently truncates:
asking for 20 bytes at offset 90 of a 100-byte segment returns the 10
existing bytes and cannot fail, contradicting the claim that every
out-of-bounds read fails with an out-of-bounds error. -/
theorem C3_counterexample :
    SegmentsModule.HugePagesSegment.read_vectorized
        (List.replicate 100 7) 90 20 = List.replicate 10 7 ∧
    SegmentsModule.NumaAwareSharedMemory.read_vectorized
        (List.replicate 100 7) 90 20 = List.replicate 10 7 ∧
    (SegmentsModule.HugePagesSegment.read_vectorized
        (List.replicate 100 7) 90 20).length = 10 := by
  refine ⟨?_, ?_, ?_⟩ <;> decide

/-- C3 (amended): the segment classes of the `segments/` package
(hugepages, posix_shm, numa_aware, optimized_buffer) do fail with an
out-of-bounds `ValueError` on every read or write request with
`offset + length > size`; only the superseded flat-module classes
truncate reads. -/
theorem C3_package_segments_bounds_checked (seg : List Nat)
    (offset size : Nat) (data : List Nat)
    (hr : offset + size > seg.length)
    (hw : offset + data.length > seg.length) :
    SegmentsPackage.read_vectorized seg offset size = .error .valueError ∧
    SegmentsPackage.write_vectorized seg offset data = .error .valueError := by
  constructor
  · unfold SegmentsPackage.read_vectorized
    rw [if_pos hr]
  · unfold SegmentsPackage.write_vectorized
    rw [if_pos hw]

/-- C3 witness: the package segment read and write both reject offset
90, length 20 on a 100-byte segment. -/
theorem C3_witness :
    (90 + 20 > (List.replicate 100 (7 : Nat)).length ∧
     90 + (List.replicate 20 (3 : Nat)).length >
       (List.replicate 100 (7 : Nat)).length) ∧
    (SegmentsPackage.read_vectorized (List.replicate 100 7) 90 20 =
        .error .valueError ∧
     SegmentsPackage.write_vectorized (List.replicate 100 7) 90
        (List.replicate 20 3) = .error .valueError) :=
  ⟨by decide,
   C3_package_segments_bounds_checked _ _ _ _ (by decide) (by decide)⟩

/-- C4 counterexample: a `materialize()` on a CORRUPTED reference sets
the state to ACTIVE and returns a tensor, so CORRUPTED is not a
terminal state. -/
theorem C4_counterexample :
    (TensorReference.materialize_optimized noLib true 1 [0]
        c4_reference [5]).1.state = .ACTIVE ∧
    (TensorReference.materialize_optimized noLib true 1 [0]
        c4_reference [5]).2 = .ok ⟨[1], 1, [5]⟩ :=
  ⟨rfl, rfl⟩

/-- C4 (amended): CORRUPTED and EXPIRED are not terminal — only
DETACHED blocks operations.  From a CORRUPTED (or EXPIRED) state,
`detach` transitions to DETACHED, a fitting `persist` transitions to
ACTIVE, and `materialize` is never rejected for the state (it
proceeds; the counterexample shows it can return ACTIVE with a
tensor). -/
theorem C4_error_states_not_terminal (r : TensorReference)
    (csFn : List Nat → Nat) (lib : CompressionLib) (useP : Bool)
    (cpu : Nat) (ord : List Nat) (seg : List Nat) (t : PyTensor)
    (h : r.state = .CORRUPTED ∨ r.state = .EXPIRED)
    (henc : (TensorCodec.encode_parallel lib t
        r.descriptor.compression_type).length ≤
      r.descriptor.aligned_byte_size) :
    (r.detach_gracefully).state = .DETACHED ∧
    (r.persist_optimized csFn lib seg t).1.state = .ACTIVE ∧
    (r.materialize_optimized lib useP cpu ord seg).2 ≠
      .error .tensorDetached := by
  have hne : r.state ≠ .DETACHED := by
    rcases h with h | h <;> rw [h] <;> intro hc <;> cases hc
  refine ⟨rfl, ?_, ?_⟩
  · unfold TensorReference.persist_optimized
    rw [if_neg hne]
    rw [if_neg (not_lt.mpr henc)]
  · unfold TensorReference.materialize_optimized
    cases hw : r.weak_tensor with
    | some t' => simp
    | none =>
      simp only [hw]
      rw [if_neg hne]
      cases hd : TensorCodec.decode_parallel lib useP cpu ord
          (pySlice seg r.offset r.descriptor.raw_byte_size)
          r.descriptor with
      | ok t'' => simp [TensorCodec.validate_integrity_fast, hd]
      | error e =>
        simp only [TensorCodec.validate_integrity_fast, hd,
          not_true_eq_false, if_false, ne_eq, Except.error.injEq]
        intro he
        exact decode_parallel_ne_detached lib useP cpu ord _ _
          (he ▸ hd)

/-- C4 witness: the amended statement at the concrete CORRUPTED
reference `c4_reference`. -/
theorem C4_witness :
    (c4_reference.state = .CORRUPTED ∨ c4_reference.state = .EXPIRED) ∧
    (TensorCodec.encode_parallel noLib ⟨[1], 1, [7]⟩
        c4_reference.descriptor.compression_type).length ≤
      c4_reference.descriptor.aligned_byte_size ∧
    ((c4_reference.detach_gracefully).state = .DETACHED ∧
     (c4_reference.persist_optimized (fun _ => 0) noLib [5]
        ⟨[1], 1, [7]⟩).1.state = .ACTIVE ∧
     (c4_reference.materialize_optimized noLib true 1 [0] [5]).2 ≠
       .error .tensorDetached) :=
  ⟨Or.inl rfl, by decide,
   C4_error_states_not_terminal c4_reference (fun _ => 0) noLib true 1
     [0] [5] ⟨[1], 1, [7]⟩ (Or.inl rfl) (by decide)⟩

/-- C5 counterexample: an entry whose reference is ACTIVE (hence
valid) but whose last access predates the cutoff IS removed by
`cleanup_expired` — the claim says an active reference is never
removed no matter how old. -/
theorem C5_counterexample :
    RegRef.is_valid ⟨.ACTIVE, 0⟩ = true ∧
    (TensorRegistry.cleanup_expired ⟨[(1, ⟨.ACTIVE, 0⟩)], [(1, 0)]⟩
        100 10).1.tensors = [] :=
  ⟨rfl, rfl⟩

/-- C5 (amended): `cleanup_expired(max_age)` removes an entry iff its
registry-recorded last access predates `now - max_age` AND its
reference is either not valid or the reference's own last-access stamp
also predates `now - max_age`; in particular an ACTIVE reference is
removed once both stamps are old. -/
theorem C5_cleanup_removal_characterization (reg : TensorRegistry)
    (now max_age : Int) (id : Nat) (r : RegRef) (la : Int)
    (h1 : dictLookup reg.tensors id = some r)
    (h2 : dictLookup reg.lru_cache id = some la)
    (h3 : (reg.lru_cache.map Prod.fst).Nodup) :
    (dictLookup ((reg.cleanup_expired now max_age).1).tensors id =
        none) ↔
      (la < now - max_age ∧
       (r.is_valid = false ∨ r.last_access < now - max_age)) := by
  unfold TensorRegistry.cleanup_expired
  rw [foldRemove_tensors_lookup]
  have hmem : (id, la) ∈ reg.lru_cache :=
    (dictLookup_eq_some_iff_mem _ h3 _ _).mp h2
  constructor
  · intro hnone
    by_cases hin : id ∈ (reg.lru_cache.filter
        (TensorRegistry.expiredTest reg.tensors (now - max_age))).map
        (·.1)
    · obtain ⟨p, hp, hpid⟩ := List.mem_map.mp hin
      obtain ⟨hplru, hptest⟩ := List.mem_filter.mp hp
      have hpla : p = (id, la) := by
        have : dictLookup reg.lru_cache id = some p.2 := by
          have : (id, p.2) ∈ reg.lru_cache := by
            have : p = (p.1, p.2) := rfl
            rw [hpid] at this
            rw [← this]
            exact hplru
          exact (dictLookup_eq_some_iff_mem _ h3 _ _).mpr this
        have h22 : p.2 = la := by
          rw [this] at h2
          exact Option.some.inj h2
        calc p = (p.1, p.2) := rfl
          _ = (id, la) := by rw [hpid, h22]
      rw [hpla] at hptest
      unfold TensorRegistry.expiredTest at hptest
      rw [h1] at hptest
      simpa using hptest
    · rw [if_neg hin] at hnone
      rw [h1] at hnone
      cases hnone
  · intro hcond
    have htest : TensorRegistry.expiredTest reg.tensors (now - max_age)
        (id, la) = true := by
      unfold TensorRegistry.expiredTest
      rw [h1]
      simpa using hcond
    have hin : id ∈ (reg.lru_cache.filter
        (TensorRegistry.expiredTest reg.tensors (now - max_age))).map
        (·.1) :=
      List.mem_map.mpr ⟨(id, la),
        List.mem_filter.mpr ⟨hmem, htest⟩, rfl⟩
    rw [if_pos hin]

/-- C5 witness: a DETACHED (invalid) entry with both stamps older than
the cutoff is removed, as characterised by the amended theorem. -/
theorem C5_witness :
    dictLookup ([((1 : Nat), RegRef.mk .DETACHED 5)]) 1 =
        some ⟨.DETACHED, 5⟩ ∧
    ((dictLookup ((TensorRegistry.cleanup_expired
          ⟨[(1, ⟨.DETACHED, 5⟩)], [(1, 5)]⟩ 100 10).1).tensors 1 =
        none) ↔
      ((5 : Int) < 100 - 10 ∧
       (RegRef.is_valid ⟨.DETACHED, 5⟩ = false ∨
        (5 : Int) < 100 - 10))) :=
  ⟨rfl, C5_cleanup_removal_characterization
    ⟨[(1, ⟨.DETACHED, 5⟩)], [(1, 5)]⟩ 100 10 1 ⟨.DETACHED, 5⟩ 5
    rfl rfl (by simp)⟩

/-- C6: after `detach()`, a `materialize()` on the same reference
fails with the "detached" `TensorError` and leaves the state DETACHED,
and a second `detach()` is a no-op that keeps the state DETACHED. -/
theorem C6_detach_semantics (lib : CompressionLib) (useP : Bool)
    (cpu : Nat) (ord : List Nat) (r : TensorReference)
    (seg : List Nat) :
    (TensorReference.materialize_optimized lib useP cpu ord
        r.detach_gracefully seg).2 = .error .tensorDetached ∧
    (TensorReference.materialize_optimized lib useP cpu ord
        r.detach_gracefully seg).1.state = .DETACHED ∧
    (r.detach_gracefully).detach_gracefully = r.detach_gracefully ∧
    (r.detach_gracefully).state = .DETACHED := by
  refine ⟨?_, ?_, rfl, rfl⟩ <;>
    simp [TensorReference.materialize_optimized,
      TensorReference.detach_gracefully]

/-- C7 counterexample: classification does not agree with the
free-object count.  After the empty request sequence on a freshly
constructed allocator, every object of slab 0 is free yet slab 0 is
classified partial, not empty; and after exhausting slab 0 with two
allocations it has no free objects yet stays partial while the full
set remains empty. -/
theorem C7_counterexample :
    (SlabAllocator.applyOps c8_allocator []).free_objects.countP
        (fun obj => decide (0 ≤ obj ∧
          obj < 0 + (SlabAllocator.applyOps c8_allocator
            []).slab_size)) =
      (SlabAllocator.applyOps c8_allocator []).objects_per_slab ∧
    0 ∈ (SlabAllocator.applyOps c8_allocator []).partial_slabs ∧
    0 ∉ (SlabAllocator.applyOps c8_allocator []).empty_slabs ∧
    (SlabAllocator.applyOps c8_allocator
        [.alloc 1024, .alloc 1024]).free_objects = [] ∧
    0 ∈ (SlabAllocator.applyOps c8_allocator
        [.alloc 1024, .alloc 1024]).partial_slabs ∧
    (SlabAllocator.applyOps c8_allocator
        [.alloc 1024, .alloc 1024]).full_slabs = [] := by
  refine ⟨?_, ?_, ?_, ?_, ?_, ?_⟩ <;> decide

/-- C7 (amended): after every sequence of allocate/deallocate requests
on a constructor-built allocator with positive slab size, the
classification sets are pairwise disjoint and together hold exactly
one entry per slab created so far, and the full set is always empty;
the stated agreement between classification and per-slab free count
does not hold (see the counterexample). -/
theorem C7_classification_partition (seg obj slab : Nat)
    (s0 : SlabAllocator) (ops : List SlabAllocator.Op)
    (hpos : 0 < slab)
    (hinit : SlabAllocator.init seg obj slab = .ok s0) :
    SlabInv (s0.applyOps ops) := by
  have h0 : SlabInv s0 := by
    unfold SlabAllocator.init SlabAllocator.create_slab at hinit
    simp only [List.length_nil, Nat.zero_mul, Nat.zero_add,
      Nat.add_zero] at hinit
    by_cases hb : slab > seg
    · rw [if_pos hb] at hinit
      cases hinit
    · rw [if_neg hb] at hinit
      simp only [Except.ok.injEq] at hinit
      subst hinit
      refine ⟨hpos, rfl, ?_⟩
      simp [SlabAllocator.total_slabs, setAdd, List.range_succ]
  clear hinit
  induction ops generalizing s0 with
  | nil => exact h0
  | cons op rest ih =>
    exact ih _ (slabInv_applyOp s0 op h0)

/-- C7 witness: the partition invariant at a concrete allocator and a
concrete request sequence that allocates twice and frees once. -/
theorem C7_witness :
    (0 < 2048 ∧ SlabAllocator.init 2048 1024 2048 = .ok c8_allocator) ∧
    SlabInv (c8_allocator.applyOps
      [.alloc 1024, .alloc 512, .dealloc 0]) :=
  ⟨⟨by decide, rfl⟩,
   C7_classification_partition 2048 1024 2048 c8_allocator
     [.alloc 1024, .alloc 512, .dealloc 0] (by decide) rfl⟩

/-- C8: every allocation request larger than the allocator's object
size fails with `AllocationFailure` (the size check precedes any state
mutation). -/
theorem C8_allocate_oversize (s : SlabAllocator) (size : Nat)
    (h : size > s.object_size) :
    s.allocate_aligned size = .error .allocationFailure := by
  unfold SlabAllocator.allocate_aligned
  rw [if_pos h]

/-- C8 witness: `c8_allocator` (object size 1024) is exactly what the
constructor builds, and an 8000-byte request on it fails with
`AllocationFailure`. -/
theorem C8_witness :
    SlabAllocator.init 2048 1024 2048 = .ok c8_allocator ∧
    8000 > c8_allocator.object_size ∧
    c8_allocator.allocate_aligned 8000 = .error .allocationFailure :=
  ⟨rfl, by decide,
   C8_allocate_oversize c8_allocator 8000 (by decide)⟩

/-- `applyOps` distributes over list append. -/
theorem applyOps_append (s : SlabAllocator)
    (l1 l2 : List SlabAllocator.Op) :
    s.applyOps (l1 ++ l2) = (s.applyOps l1).applyOps l2 := by
  simp [SlabAllocator.applyOps, List.foldl_append]

/-- Draining the free deque: as long as objects remain free, each
allocation of a fitting size pops the head and only the free deque and
the allocation counter change. -/
theorem applyOps_drain (size : Nat) :
    ∀ (l : List Nat) (s : SlabAllocator), size ≤ s.object_size →
    s.free_objects = l →
    SlabAllocator.applyOps s (List.replicate l.length (.alloc size)) =
      {s with
        free_objects := []
        allocation_count := s.allocation_count + l.length} := by
  intro l
  induction l with
  | nil =>
    intro s hsz hfree
    simp only [List.length_nil, List.replicate_zero,
      SlabAllocator.applyOps, List.foldl_nil]
    cases s
    simp_all
  | cons a rest ih =>
    intro s hsz hfree
    simp only [List.length_cons, List.replicate_succ,
      SlabAllocator.applyOps, List.foldl_cons]
    have hstep : SlabAllocator.applyOp s (.alloc size) =
        {s with
          free_objects := rest
          allocation_count := s.allocation_count + 1} := by
      simp only [SlabAllocator.applyOp]
      have halloc : s.allocate_aligned size =
          .ok (a, {s with
            free_objects := rest
            allocation_count := s.allocation_count + 1}) := by
        unfold SlabAllocator.allocate_aligned
        rw [if_neg (Nat.not_lt.mpr hsz)]
        simp only [hfree, List.isEmpty_cons, Bool.false_eq_true,
          if_false]
      rw [halloc]
    rw [hstep]
    have := ih {s with
        free_objects := rest
        allocation_count := s.allocation_count + 1} hsz rfl
    simp only [SlabAllocator.applyOps] at this
    rw [this]
    have harith : s.allocation_count + 1 + rest.length =
        s.allocation_count + (rest.length + 1) := by omega
    simp only [harith]

/-- Allocating when the free deque and the empty set are both empty:
a fresh slab is created at `total_slabs * slab_size`, classified
partial, and its first object is handed out. -/
theorem alloc_new_slab (s : SlabAllocator) (size : Nat)
    (hsize : ¬ size > s.object_size) (hfree : s.free_objects = [])
    (hempty : s.empty_slabs = [])
    (hbound : ¬ ((s.partial_slabs.length + s.full_slabs.length +
        s.empty_slabs.length) * s.slab_size + s.slab_size >
      s.segment_size))
    (o : Nat) (orest : List Nat)
    (hobjs : (List.range s.objects_per_slab).map
        (fun i => (s.partial_slabs.length + s.full_slabs.length +
          s.empty_slabs.length) * s.slab_size + i * s.object_size) =
      o :: orest) :
    s.allocate_aligned size = .ok (o, {s with
      partial_slabs := setAdd s.partial_slabs
        ((s.partial_slabs.length + s.full_slabs.length +
          s.empty_slabs.length) * s.slab_size)
      free_objects := orest
      allocation_count := s.allocation_count + 1}) := by
  obtain ⟨seg, slab, obj, N, free, pslabs, fslabs, eslabs, ac, dc⟩ := s
  dsimp only at hsize hfree hempty hbound hobjs ⊢
  subst hfree
  subst hempty
  unfold SlabAllocator.allocate_aligned SlabAllocator.create_slab
  rw [if_neg hsize]
  simp only [List.isEmpty_nil, if_true]
  rw [if_neg hbound]
  simp only [List.nil_append, hobjs]

/-- The allocator built by
`SlabAllocator(segment of 4 MiB, object_size=1024, slab_size=1 MiB)`:
1024 objects in one partial slab. -/
def c9_s0 : SlabAllocator :=
  { segment_size := 4194304, slab_size := 1048576, object_size := 1024,
    objects_per_slab := 1024,
    free_objects := (List.range 1024).map (fun i => 0 + i * 1024),
    partial_slabs := [0], full_slabs := [], empty_slabs := [],
    allocation_count := 0, deallocation_count := 0 }

/-- `c9_s0` after 1024 allocations: slab 0 exhausted, still the only
slab, still classified partial. -/
def c9_mid : SlabAllocator :=
  { segment_size := 4194304, slab_size := 1048576, object_size := 1024,
    objects_per_slab := 1024, free_objects := [],
    partial_slabs := [0], full_slabs := [], empty_slabs := [],
    allocation_count := 1024, deallocation_count := 0 }

/-- After the 1025th allocation: a second slab at offset 1 MiB was
created and its first object handed out. -/
def c9_s1 : SlabAllocator :=
  { segment_size := 4194304, slab_size := 1048576, object_size := 1024,
    objects_per_slab := 1024,
    free_objects := ((List.range 1023).map Nat.succ).map
      (fun i => 1048576 + i * 1024),
    partial_slabs := [1048576, 0], full_slabs := [], empty_slabs := [],
    allocation_count := 1025, deallocation_count := 0 }

/-- The free objects of slab 1 that remain after the 1025th
allocation. -/
def c9_L1 : List Nat :=
  ((List.range 1023).map Nat.succ).map (fun i => 1048576 + i * 1024)

/-- The allocator state after deallocating the first `j` objects of
slab 0 (for `j < 1024`; no reclassification has happened yet). -/
def c9_stateAt (j : Nat) : SlabAllocator :=
  { segment_size := 4194304, slab_size := 1048576, object_size := 1024,
    objects_per_slab := 1024,
    free_objects := c9_L1 ++ (List.range j).map (fun i => i * 1024),
    partial_slabs := [1048576, 0], full_slabs := [], empty_slabs := [],
    allocation_count := 1025, deallocation_count := j }

/-- The state after all 1024 objects of slab 0 are deallocated: slab 0
reclassified from partial to empty. -/
def c9_final : SlabAllocator :=
  { segment_size := 4194304, slab_size := 1048576, object_size := 1024,
    objects_per_slab := 1024,
    free_objects := c9_L1 ++ (List.range 1024).map (fun i => i * 1024),
    partial_slabs := [1048576], full_slabs := [], empty_slabs := [0],
    allocation_count := 1025, deallocation_count := 1024 }

/-- Pushing the next deallocated offset extends the pushed-back block
by one. -/
theorem push_back (f : Nat → Nat) (L : List Nat) (j : Nat) :
    (L ++ (List.range j).map f) ++ [f j] =
      L ++ (List.range (j + 1)).map f := by
  rw [List.append_assoc, List.range_succ, List.map_append]
  rfl

/-- Counting slab-0 objects in the phase-2 free deque: the slab-1
leftovers (all at or above 1 MiB) contribute nothing and the `j`
pushed-back offsets (all below 1 MiB) each count. -/
theorem c9_countP (j : Nat) (hj : j ≤ 1024) :
    (c9_L1 ++ (List.range j).map (fun i => i * 1024)).countP
      (fun obj => decide (0 ≤ obj ∧ obj < 0 + 1048576)) = j := by
  rw [List.countP_append]
  have h1 : c9_L1.countP
      (fun obj => decide (0 ≤ obj ∧ obj < 0 + 1048576)) = 0 := by
    rw [List.countP_eq_zero]
    intro x hx
    simp only [c9_L1, List.map_map, List.mem_map, Function.comp,
      List.mem_range] at hx
    obtain ⟨i, hi, rfl⟩ := hx
    simp only [decide_eq_true_eq, not_and, not_lt]
    intro _
    omega
  have h2 : ((List.range j).map (fun i => i * 1024)).countP
      (fun obj => decide (0 ≤ obj ∧ obj < 0 + 1048576)) =
      ((List.range j).map (fun i => i * 1024)).length := by
    rw [List.countP_eq_length]
    intro x hx
    simp only [List.mem_map, List.mem_range] at hx
    obtain ⟨i, hi, rfl⟩ := hx
    simp only [decide_eq_true_eq]
    omega
  rw [h1, h2, List.length_map, List.length_range]
  omega

/-- A deallocation whose slab still has unfree objects afterwards:
push the offset back, bump the counter, no reclassification. -/
theorem dealloc_noreclass (s : SlabAllocator) (offset cnt : Nat)
    (hcnt : (s.free_objects ++ [offset]).countP
        (fun obj => decide (offset / s.slab_size * s.slab_size ≤ obj ∧
          obj < offset / s.slab_size * s.slab_size + s.slab_size)) =
      cnt)
    (hne : cnt ≠ s.objects_per_slab) :
    s.deallocate_fast offset = {s with
      free_objects := s.free_objects ++ [offset]
      deallocation_count := s.deallocation_count + 1} := by
  unfold SlabAllocator.deallocate_fast
  simp only []
  rw [hcnt, if_neg hne]

/-- A deallocation that frees the last object of a partial slab:
push the offset back, bump the counter, and move the slab from the
partial to the empty set. -/
theorem dealloc_reclass (s : SlabAllocator) (offset : Nat)
    (hcnt : (s.free_objects ++ [offset]).countP
        (fun obj => decide (offset / s.slab_size * s.slab_size ≤ obj ∧
          obj < offset / s.slab_size * s.slab_size + s.slab_size)) =
      s.objects_per_slab)
    (hmem : offset / s.slab_size * s.slab_size ∈ s.partial_slabs) :
    s.deallocate_fast offset = {s with
      free_objects := s.free_objects ++ [offset]
      deallocation_count := s.deallocation_count + 1
      partial_slabs := s.partial_slabs.erase
        (offset / s.slab_size * s.slab_size)
      empty_slabs := setAdd s.empty_slabs
        (offset / s.slab_size * s.slab_size)} := by
  unfold SlabAllocator.deallocate_fast
  simp only []
  rw [hcnt, if_pos rfl, if_pos hmem]

/-- One phase-2 deallocation that does not yet complete slab 0: the
offset is pushed back and the count stays below 1024, so no
reclassification. -/
theorem c9_dealloc_step (j : Nat) (hj : j < 1023) :
    (c9_stateAt j).deallocate_fast (j * 1024) = c9_stateAt (j + 1) := by
  have hso : j * 1024 / 1048576 = 0 := Nat.div_eq_of_lt (by omega)
  have hfr : (c9_stateAt j).free_objects ++ [j * 1024] =
      c9_L1 ++ (List.range (j + 1)).map (fun i => i * 1024) :=
    push_back _ _ _
  have hcnt : ((c9_stateAt j).free_objects ++ [j * 1024]).countP
      (fun obj => decide (j * 1024 / (c9_stateAt j).slab_size *
          (c9_stateAt j).slab_size ≤ obj ∧
        obj < j * 1024 / (c9_stateAt j).slab_size *
          (c9_stateAt j).slab_size + (c9_stateAt j).slab_size)) =
      j + 1 := by
    rw [hfr]
    show (c9_L1 ++ (List.range (j + 1)).map
        (fun i => i * 1024)).countP
      (fun obj => decide (j * 1024 / 1048576 * 1048576 ≤ obj ∧
        obj < j * 1024 / 1048576 * 1048576 + 1048576)) = j + 1
    rw [hso, Nat.zero_mul]
    exact c9_countP (j + 1) (by omega)
  rw [dealloc_noreclass (c9_stateAt j) (j * 1024) (j + 1) hcnt
    (by show j + 1 ≠ 1024; omega)]
  rw [hfr]
  rfl

/-- The 1024th phase-2 deallocation completes slab 0: the free count
reaches 1024 and the slab moves from the partial to the empty set. -/
theorem c9_dealloc_last :
    (c9_stateAt 1023).deallocate_fast (1023 * 1024) = c9_final := by
  have hso : (1023 : Nat) * 1024 / 1048576 = 0 :=
    Nat.div_eq_of_lt (by omega)
  have hfr : (c9_stateAt 1023).free_objects ++ [1023 * 1024] =
      c9_L1 ++ (List.range 1024).map (fun i => i * 1024) :=
    push_back _ _ _
  have hcnt : ((c9_stateAt 1023).free_objects ++ [1023 * 1024]).countP
      (fun obj => decide (1023 * 1024 / (c9_stateAt 1023).slab_size *
          (c9_stateAt 1023).slab_size ≤ obj ∧
        obj < 1023 * 1024 / (c9_stateAt 1023).slab_size *
          (c9_stateAt 1023).slab_size + (c9_stateAt 1023).slab_size)) =
      (c9_stateAt 1023).objects_per_slab := by
    rw [hfr]
    show (c9_L1 ++ (List.range 1024).map (fun i => i * 1024)).countP
      (fun obj => decide (1023 * 1024 / 1048576 * 1048576 ≤ obj ∧
        obj < 1023 * 1024 / 1048576 * 1048576 + 1048576)) = 1024
    rw [hso, Nat.zero_mul]
    exact c9_countP 1024 (by omega)
  have hmem : 1023 * 1024 / (c9_stateAt 1023).slab_size *
      (c9_stateAt 1023).slab_size ∈ (c9_stateAt 1023).partial_slabs := by
    show 1023 * 1024 / 1048576 * 1048576 ∈ [1048576, 0]
    rw [hso, Nat.zero_mul]
    exact List.mem_cons_of_mem _ (List.mem_cons_self _ _)
  rw [dealloc_reclass (c9_stateAt 1023) (1023 * 1024) hcnt hmem]
  rw [hfr]
  rfl

/-- Folding the remaining phase-2 deallocations from state `j` reaches
the final state. -/
theorem c9_dealloc_run : ∀ (k j : Nat), j + k = 1024 → 1 ≤ k →
    SlabAllocator.applyOps (c9_stateAt j)
      ((List.range' j k).map (fun i => .dealloc (i * 1024))) =
      c9_final := by
  intro k
  induction k with
  | zero =>
    intro j _ h1
    exact absurd h1 (by norm_num)
  | succ k ih =>
    intro j hjk _
    rw [List.range'_succ]
    simp only [List.map_cons, SlabAllocator.applyOps, List.foldl_cons]
    rcases Nat.eq_zero_or_pos k with hk0 | hkpos
    · subst hk0
      have hj : j = 1023 := by omega
      subst hj
      simp only [SlabAllocator.applyOp]
      rw [c9_dealloc_last]
      rfl
    · have hj : j < 1023 := by omega
      simp only [SlabAllocator.applyOp]
      rw [c9_dealloc_step j hj]
      have := ih (j + 1) (by omega) (by omega)
      simp only [SlabAllocator.applyOps] at this
      exact this

set_option maxRecDepth 1000000 in
/-- C9: with a 1 MiB slab over 1 KiB objects each slab holds exactly
1024 objects; 1024 allocations still fit in the single initial slab,
the 1025th forces a second slab; and deallocating all 1024 objects of
slab 0 reclassifies it as empty. -/
theorem C9_slab_scenario :
    SlabAllocator.init 4194304 1024 1048576 = .ok c9_s0 ∧
    c9_s0.objects_per_slab = 1024 ∧
    (c9_s0.applyOps
      (List.replicate 1024 (.alloc 1024))).total_slabs = 1 ∧
    (c9_s0.applyOps
      (List.replicate 1025 (.alloc 1024))).total_slabs = 2 ∧
    (c9_s0.applyOps (List.replicate 1025 (.alloc 1024) ++
      (List.range 1024).map
        (fun i => .dealloc (i * 1024)))).partial_slabs = [1048576] ∧
    (c9_s0.applyOps (List.replicate 1025 (.alloc 1024) ++
      (List.range 1024).map
        (fun i => .dealloc (i * 1024)))).empty_slabs = [0] := by
  have hl : c9_s0.free_objects.length = 1024 := by
    show ((List.range 1024).map (fun i => 0 + i * 1024)).length = 1024
    rw [List.length_map, List.length_range]
  have hmid : c9_s0.applyOps (List.replicate 1024 (.alloc 1024)) =
      c9_mid := by
    have := applyOps_drain 1024 c9_s0.free_objects c9_s0
      (Nat.le_refl 1024) rfl
    rw [hl] at this
    rw [this]
    rfl
  have hr1024 : List.range 1024 = 0 :: (List.range 1023).map Nat.succ :=
    List.range_succ_eq_map 1023
  have hobjs : (List.range c9_mid.objects_per_slab).map
      (fun i => (c9_mid.partial_slabs.length +
        c9_mid.full_slabs.length + c9_mid.empty_slabs.length) *
          c9_mid.slab_size + i * c9_mid.object_size) =
      1048576 :: c9_L1 := by
    show (List.range 1024).map
      (fun i => (c9_mid.partial_slabs.length +
        c9_mid.full_slabs.length + c9_mid.empty_slabs.length) *
          c9_mid.slab_size + i * c9_mid.object_size) = 1048576 :: c9_L1
    rw [hr1024, List.map_cons]
    rfl
  have halloc1025 : SlabAllocator.applyOp c9_mid (.alloc 1024) =
      c9_s1 := by
    simp only [SlabAllocator.applyOp]
    rw [alloc_new_slab c9_mid 1024 (by norm_num [c9_mid]) rfl rfl
      (by norm_num [c9_mid]) 1048576 c9_L1 hobjs]
    rfl
  have h1025 : c9_s0.applyOps (List.replicate 1025 (.alloc 1024)) =
      c9_s1 := by
    rw [show (1025 : Nat) = 1024 + 1 from rfl, List.replicate_succ',
      applyOps_append, hmid]
    simp only [SlabAllocator.applyOps, List.foldl_cons, List.foldl_nil]
    exact halloc1025
  have hs1 : c9_s1 = c9_stateAt 0 := by
    simp only [c9_s1, c9_stateAt, c9_L1, List.range_zero,
      List.map_nil, List.append_nil]
  have hdeall : c9_s1.applyOps ((List.range 1024).map
      (fun i => .dealloc (i * 1024))) = c9_final := by
    rw [hs1, List.range_eq_range']
    exact c9_dealloc_run 1024 0 (by norm_num) (by norm_num)
  have hfull : c9_s0.applyOps (List.replicate 1025 (.alloc 1024) ++
      (List.range 1024).map (fun i => .dealloc (i * 1024))) =
      c9_final := by
    rw [applyOps_append, h1025, hdeall]
  refine ⟨rfl, rfl, ?_, ?_, ?_, ?_⟩
  · rw [hmid]
    rfl
  · rw [h1025]
    rfl
  · rw [hfull]
    rfl
  · rw [hfull]
    rfl

/-- C10: when the encoding of the tensor exceeds the descriptor's
`aligned_byte_size`, a `persist` on a non-detached reference raises
the oversize `TensorError` before writing: the segment and the
descriptor (checksum included) are untouched and only the lifecycle
state changed, left at PERSISTING. -/
theorem C10_persist_oversize_frame (csFn : List Nat → Nat)
    (lib : CompressionLib) (r : TensorReference) (seg : List Nat)
    (t : PyTensor) (h1 : r.state ≠ .DETACHED)
    (h2 : (TensorCodec.encode_parallel lib t
        r.descriptor.compression_type).length >
      r.descriptor.aligned_byte_size) :
    r.persist_optimized csFn lib seg t =
      ({r with state := .PERSISTING}, seg, .error .encodedOversize) := by
  unfold TensorReference.persist_optimized
  rw [if_neg h1]
  rw [if_pos h2]

/-- C10 witness: an 8-byte encoding against a 4-byte aligned slot on a
freshly allocated reference takes the oversize path and leaves the
4-byte segment bytes intact. -/
theorem C10_witness :
    c10_reference.state ≠ .DETACHED ∧
    (TensorCodec.encode_parallel noLib ⟨[8], 1, List.replicate 8 9⟩
        c10_reference.descriptor.compression_type).length >
      c10_reference.descriptor.aligned_byte_size ∧
    c10_reference.persist_optimized (fun _ => 0) noLib [1, 2, 3, 4]
        ⟨[8], 1, List.replicate 8 9⟩ =
      ({c10_reference with state := .PERSISTING}, [1, 2, 3, 4],
       .error .encodedOversize) :=
  ⟨by decide, by decide,
   C10_persist_oversize_frame (fun _ => 0) noLib c10_reference
     [1, 2, 3, 4] ⟨[8], 1, List.replicate 8 9⟩ (by decide) (by decide)⟩

end TensorOptim
